import Mathlib

/-!
Shallow embedding of the gameplay core of the infernal-descent repository
(src/js/game.js, class Game, together with the constants at the top of that
file). The rendering engine (src/js/engine.js) is the external presentation
host: camera pose, input snapshots, ray-intersection queries and audio
playback are modelled as explicit inputs and event outputs.

Conventions:
- JS numbers are embedded as exact rationals wherever the game only adds,
  subtracts, multiplies and compares them; THREE.Vector3 distance and
  normalize, which need square roots, are embedded over the reals.
- Comparisons of THREE distanceTo against a fixed nonnegative threshold c
  are embedded in the rational models as squared comparisons
  (distSq a b < c ^ 2), which is equivalent for c at least 0.
- Audio playback requests are collected in a list of sound names; a ray
  cast against the enemy meshes is counted by a rayCasts field.
-/

namespace InfernalDescent

/-- Vec3 mirrors the THREE.Vector3 triples used by game.js. -/
@[ext]
structure Vec3 (α : Type) where
  x : α
  y : α
  z : α
deriving DecidableEq, Repr

instance {α : Type} [Add α] : Add (Vec3 α) :=
  ⟨fun a b => ⟨a.x + b.x, a.y + b.y, a.z + b.z⟩⟩

instance {α : Type} [Sub α] : Sub (Vec3 α) :=
  ⟨fun a b => ⟨a.x - b.x, a.y - b.y, a.z - b.z⟩⟩

instance {α : Type} [Mul α] : SMul α (Vec3 α) :=
  ⟨fun c v => ⟨c * v.x, c * v.y, c * v.z⟩⟩

abbrev Vec3Q := Vec3 ℚ

abbrev Vec3R := Vec3 ℝ

/-- Global constant PLAYER_SPEED from game.js. -/
def PLAYER_SPEED : ℚ := 10

/-- Global constant SPRINT_MULTIPLIER (1.5) from game.js. -/
def SPRINT_MULTIPLIER : ℚ := 3 / 2

/-- Global constant GRAVITY from game.js. -/
def GRAVITY : ℚ := 30

/-- Global constant JUMP_FORCE from game.js. -/
def JUMP_FORCE : ℚ := 15

/-- Weapon delivery kind, the type field of a WEAPONS catalog entry. -/
inductive WType where
  | HITSCAN
  | PROJECTILE
  | AOE
deriving DecidableEq, Repr

/-- One entry of the WEAPONS catalog of game.js. -/
structure Weapon where
  name : String
  damage : ℚ
  range : ℚ
  delay : ℤ
  type : WType
deriving DecidableEq, Repr

/-- The WEAPONS catalog of game.js, keyed by slot index 0..3. -/
def WEAPONS (i : Fin 4) : Weapon :=
  match i.val with
  | 0 => { name := "Knuckles", damage := 10, range := 3, delay := 500, type := WType.HITSCAN }
  | 1 => { name := "Shotgun", damage := 80, range := 15, delay := 1000, type := WType.HITSCAN }
  | 2 => { name := "Nailgun", damage := 15, range := 40, delay := 100, type := WType.PROJECTILE }
  | _ => { name := "Launcher", damage := 120, range := 60, delay := 1500, type := WType.AOE }

/-- The sfxMap array of Game._handleShooting: the weapon specific audio cue per slot. -/
def sfxMap (i : Fin 4) : String :=
  match i.val with
  | 0 => "punch"
  | 1 => "shotgun"
  | 2 => "nailgun"
  | _ => "launcher"

/-- The ammo record of the player state in the Game constructor. -/
structure Ammo where
  current : ℤ
  max : ℤ
deriving DecidableEq, Repr

/-- The player record of the Game constructor. The camera position, owned by
the engine controls object, is passed separately where needed. -/
structure Player where
  hp : ℚ
  armor : ℤ
  ammo : Ammo
  velocity : Vec3Q
  canJump : Bool
  currentWeaponIdx : Fin 4
  lastFireTime : ℤ
deriving DecidableEq, Repr

/-- The initial player state built by the Game constructor. -/
def initialPlayer : Player :=
  { hp := 100, armor := 0, ammo := { current := 20, max := 50 },
    velocity := ⟨0, 0, 0⟩, canJump := false, currentWeaponIdx := 0, lastFireTime := 0 }

/-- Enemy behavior state of game.js (the state field, IDLE or CHASE). -/
inductive EState where
  | IDLE
  | CHASE
deriving DecidableEq, Repr

/-- The enemy object wrapper built by Game._spawnEnemy. The mesh field is the
enemy sprite; its payload type V is the sprite position in the geometric
models and a bare identity elsewhere. The texture field is the name of the
sprite material map. -/
structure Enemy (V : Type) where
  mesh : V
  hp : ℚ
  state : EState
  speed : ℚ
  attackRange : ℚ
  texture : String
deriving DecidableEq, Repr

abbrev EnemyQ := Enemy Vec3Q

abbrev EnemyR := Enemy Vec3R

/-- Game._spawnEnemy: a fresh enemy at a given position, hp 50, IDLE,
speed 3.0, attackRange 2.0, idle texture. -/
def spawnEnemy {V : Type} (pos : V) : Enemy V :=
  { mesh := pos, hp := 50, state := EState.IDLE, speed := 3, attackRange := 2,
    texture := "enemy_idle" }

/-- Game._damageEnemy restricted to the enemy record: enemy.hp -= damage.
The transient red flash is presentation only and carries no simulation state. -/
def damageEnemy {V : Type} (e : Enemy V) (damage : ℚ) : Enemy V :=
  { e with hp := e.hp - damage }

/-- Game._damageEnemy followed, when hp crosses 0, by Game._killEnemy on the
enemies array: the enemy at index i takes the damage; if its hp is then at
most 0 it is spliced out of the array and the die sound is requested.
The index plays the role of the mesh reference identifying the enemy; an out
of range index is the guard `if (enemy)` failing, leaving everything as is. -/
def damageEnemyAt {V : Type} (es : List (Enemy V)) (i : ℕ) (damage : ℚ) :
    List (Enemy V) × List String :=
  match es[i]? with
  | none => (es, [])
  | some e =>
      let e' := damageEnemy e damage
      if e'.hp ≤ 0 then (es.eraseIdx i, ["die"]) else (es.set i e', [])

/-- One ordered ray intersection returned by the engine raycaster against the
enemy meshes: the hit distance and the index of the enemy whose mesh was hit. -/
structure Hit where
  dist : ℚ
  idx : ℕ
deriving DecidableEq, Repr

/-- Game._fireHitscan: the raycaster result list (ordered, nearest first, as
THREE intersectObjects returns it) is examined; only hits[0] is used, and only
when its distance is at most the weapon range does the hit enemy take damage. -/
def fireHitscan (weapon : Weapon) (hits : List Hit) (es : List EnemyQ) :
    List EnemyQ × List String :=
  match hits with
  | [] => (es, [])
  | hit :: _ =>
      if hit.dist ≤ weapon.range then damageEnemyAt es hit.idx weapon.damage
      else (es, [])

/-- The projectile record pushed by Game._fireProjectile. -/
structure ProjectileQ where
  mesh : Vec3Q
  velocity : Vec3Q
  type : WType
  damage : ℚ
  lifetime : ℚ
deriving DecidableEq, Repr

/-- Game._fireProjectile: the sphere spawns one unit in front of the camera,
velocity is the camera direction scaled by 30, lifetime 2.0 seconds. -/
def fireProjectile (weapon : Weapon) (camPos camDir : Vec3Q) : ProjectileQ :=
  { mesh := camPos + camDir, velocity := (30 : ℚ) • camDir,
    type := weapon.type, damage := weapon.damage, lifetime := 2 }

/-- Result of Game._handleShooting: the updated player, enemies and
projectiles, the requested sounds, and how many rays were cast against the
enemy meshes. -/
structure ShootOut where
  player : Player
  enemies : List EnemyQ
  projectiles : List ProjectileQ
  sounds : List String
  rayCasts : ℕ
deriving DecidableEq, Repr

/-- Game._handleShooting: nothing happens unless the left mouse button is
held; the fire gate admits the request only when now - lastFireTime exceeds
the weapon delay; on success lastFireTime is set to now, the weapon cue from
sfxMap is requested, and the weapon resolves as a hitscan ray or as a new
projectile according to its type. -/
def handleShooting (mouseLeft : Bool) (now : ℤ) (hits : List Hit)
    (camPos camDir : Vec3Q) (p : Player) (es : List EnemyQ)
    (ps : List ProjectileQ) : ShootOut :=
  if mouseLeft = true then
    let weapon := WEAPONS p.currentWeaponIdx
    if weapon.delay < now - p.lastFireTime then
      let p' := { p with lastFireTime := now }
      let cue := sfxMap p.currentWeaponIdx
      if weapon.type = WType.HITSCAN then
        let r := fireHitscan weapon hits es
        { player := p', enemies := r.1, projectiles := ps,
          sounds := cue :: r.2, rayCasts := 1 }
      else
        { player := p', enemies := es,
          projectiles := ps ++ [fireProjectile weapon camPos camDir],
          sounds := [cue], rayCasts := 0 }
    else { player := p, enemies := es, projectiles := ps, sounds := [], rayCasts := 0 }
  else { player := p, enemies := es, projectiles := ps, sounds := [], rayCasts := 0 }

/-- The per frame inputs consumed by Game._handleShooting. -/
structure FireEvent where
  mouse : Bool
  now : ℤ
  hits : List Hit
  camPos : Vec3Q
  camDir : Vec3Q
deriving Repr

/-- The part of the game state threaded through repeated shooting frames. -/
structure SimState where
  player : Player
  enemies : List EnemyQ
  projectiles : List ProjectileQ
deriving DecidableEq, Repr

/-- One shooting frame acting on the threaded state. -/
def shootTick (ev : FireEvent) (s : SimState) : SimState :=
  let out := handleShooting ev.mouse ev.now ev.hits ev.camPos ev.camDir
    s.player s.enemies s.projectiles
  { player := out.player, enemies := out.enemies, projectiles := out.projectiles }

/-- A whole session of shooting frames. -/
def fireSession (evs : List FireEvent) (s : SimState) : SimState :=
  evs.foldl (fun st ev => shootTick ev st) s

/-- The ammo line of Game._updateHUD: the template string
current | weaponName written into hud-ammo-val. -/
def hudAmmoText (p : Player) : String :=
  toString p.ammo.current ++ " | " ++ (WEAPONS p.currentWeaponIdx).name

/-- Squared Euclidean distance between two rational points. The game compares
THREE distanceTo results only against fixed nonnegative thresholds, so
distanceTo a b < c is embedded as distSq a b < c ^ 2. -/
def distSq (a b : Vec3Q) : ℚ :=
  (a.x - b.x) ^ 2 + (a.y - b.y) ^ 2 + (a.z - b.z) ^ 2

/-- The inner for loop of Game._updateProjectiles: the index of the first
enemy, in array order, whose distance to the projectile position is below
2.0 (squared: below 4); none when no enemy is that close. -/
def firstHitIdx (pos : Vec3Q) : List EnemyQ → Option ℕ
  | [] => none
  | e :: es =>
      if distSq pos e.mesh < 4 then some 0
      else (firstHitIdx pos es).map (· + 1)

/-- The per projectile body of Game._updateProjectiles: advance by
velocity * dt, count lifetime down, damage the first enemy within 2.0 units
of the new position, and drop the projectile when it hit something or its
lifetime ran out. Returns the surviving projectile (if any), the updated
enemies and the requested sounds. -/
def stepProjectile (dt : ℚ) (p : ProjectileQ) (es : List EnemyQ) :
    Option ProjectileQ × List EnemyQ × List String :=
  let pos := p.mesh + dt • p.velocity
  let life := p.lifetime - dt
  match firstHitIdx pos es with
  | some i =>
      let r := damageEnemyAt es i p.damage
      (none, r.1, r.2)
  | none =>
      if life ≤ 0 then (none, es, [])
      else (some { p with mesh := pos, lifetime := life }, es, [])

/-- Game._updateProjectiles: the JS loop walks the array from the last index
down to 0 (so that splicing is safe); here the recursion processes the list
tail (the higher indices) first and threads the enemies through. -/
def updateProjectiles (dt : ℚ) : List ProjectileQ → List EnemyQ →
    List ProjectileQ × List EnemyQ × List String
  | [], es => ([], es, [])
  | p :: ps, es =>
      let rRest := updateProjectiles dt ps es
      let rHead := stepProjectile dt p rRest.2.1
      ((match rHead.1 with
        | some q => q :: rRest.1
        | none => rRest.1),
       rHead.2.1, rRest.2.2 ++ rHead.2.2)

/-- One ordered ray intersection of the forward view ray with the level
geometry, as the engine raycaster returns it in Game._handleEnvironment:
its distance and whether the hit object carries the isSecret flag. -/
structure EnvHit where
  dist : ℚ
  isSecret : Bool
deriving DecidableEq, Repr

/-- Game._handleEnvironment acting on the vertical position of the secret
wall: only the nearest hit is examined; when it is closer than 4.0 and is the
secret wall, and the wall is still above -5, the wall moves down by 0.1. -/
def handleEnvironment (hits : List EnvHit) (y : ℚ) : ℚ :=
  match hits with
  | [] => y
  | hit :: _ =>
      if hit.dist < 4 then
        if hit.isSecret = true then
          (if y > -5 then y - 1 / 10 else y)
        else y
      else y

/-- The call site of Game._handleEnvironment in Game._gameLoop: it only runs
while the pointer lock controls are active. -/
def envTick (isLocked : Bool) (hits : List EnvHit) (y : ℚ) : ℚ :=
  if isLocked = true then handleEnvironment hits y else y

/-- One frame of the secret wall, for arbitrary inputs. -/
def envStep (a b : ℚ) : Prop :=
  ∃ locked hits, b = envTick locked hits a

/-- The secret wall is built by Game._buildLevel at height 5; a vertical
position is reachable when some sequence of frames produces it from there. -/
def envReachable (y : ℚ) : Prop :=
  Relation.ReflTransGen envStep 5 y

/-- The keyboard snapshot of the engine (engine.keys). -/
structure Keys where
  w : Bool
  a : Bool
  s : Bool
  d : Bool
  shift : Bool
  space : Bool
deriving DecidableEq, Repr

/-- The first half of Game._handleMovement: speed and sprint selection,
horizontal velocity from the camera derived direction, gravity on the
vertical velocity, the jump gate, and the integration of velocity into the
camera position. The normalized horizontal direction is computed by the code
from the camera pose and the held keys; the camera is external, so the
direction arrives here as an input. -/
def moveIntegrate (keys : Keys) (direction : Vec3Q) (dt : ℚ) (p : Player)
    (camPos : Vec3Q) : Player × Vec3Q :=
  let speed := if keys.shift then PLAYER_SPEED * SPRINT_MULTIPLIER else PLAYER_SPEED
  let vx := direction.x * speed
  let vz := direction.z * speed
  let vy0 := p.velocity.y - GRAVITY * dt
  let doJump := keys.space && p.canJump
  let vy := if doJump then JUMP_FORCE else vy0
  let p1 := { p with velocity := ⟨vx, vy, vz⟩,
                     canJump := if doJump then false else p.canJump }
  (p1, ⟨camPos.x + vx * dt, camPos.y + vy * dt, camPos.z + vz * dt⟩)

/-- The floor collision tail of Game._handleMovement: when the camera height
fell strictly below the eye height 2.5, the vertical velocity is zeroed, the
height is clamped to 2.5 and the player may jump again. -/
def floorCollide (p : Player) (camPos : Vec3Q) : Player × Vec3Q :=
  if camPos.y < 5 / 2 then
    ({ p with velocity := ⟨p.velocity.x, 0, p.velocity.z⟩, canJump := true },
     ⟨camPos.x, 5 / 2, camPos.z⟩)
  else (p, camPos)

/-- Game._handleMovement is the integration step followed by the floor check. -/
def handleMovement (keys : Keys) (direction : Vec3Q) (dt : ℚ) (p : Player)
    (camPos : Vec3Q) : Player × Vec3Q :=
  let r := moveIntegrate keys direction dt p camPos
  floorCollide r.1 r.2

/-- Euclidean norm of a real vector, as THREE length computes it. -/
noncomputable def normR (v : Vec3R) : ℝ :=
  Real.sqrt (v.x ^ 2 + v.y ^ 2 + v.z ^ 2)

/-- THREE distanceTo between two points. -/
noncomputable def distR (a b : Vec3R) : ℝ :=
  normR (a - b)

/-- THREE normalize: divide by the length, or by 1 when the length is 0. -/
noncomputable def normalizeR (v : Vec3R) : Vec3R :=
  if normR v = 0 then v else (normR v)⁻¹ • v

/-- Zeroing the vertical component, the `dir.y = 0` step of the chase move. -/
def projXZ (v : Vec3R) : Vec3R :=
  ⟨v.x, 0, v.z⟩

/-- The IDLE to CHASE transition block of Game._updateEnemies: an IDLE enemy
becomes CHASE and its sprite texture is swapped to the chase variant; an
enemy already in CHASE is left alone. -/
def chaseTransition {V : Type} (e : Enemy V) : Enemy V :=
  if e.state = EState.IDLE then
    { e with state := EState.CHASE, texture := "enemy_chase" }
  else e

/-- The sounds requested by the transition block: the alert cue exactly when
the enemy was still IDLE. -/
def alertSounds {V : Type} (e : Enemy V) : List String :=
  if e.state = EState.IDLE then ["alert"] else []

/-- The per enemy body of Game._updateEnemies: dead enemies are skipped; the
billboard lookAt is presentation only; within sight range 25 an IDLE enemy
transitions to CHASE (swapping its texture to the chase variant and
requesting the alert cue once); then the enemy either moves toward the player
(direction normalized, then flattened to the horizontal plane, scaled by
speed * dt) or, within attack range, drains 0.1 player hp. Returns the
updated enemy, the updated player hp and the requested sounds. -/
noncomputable def updateEnemy (playerPos : Vec3R) (dt : ℝ) (e : EnemyR)
    (playerHp : ℚ) : EnemyR × ℚ × List String :=
  if e.hp ≤ 0 then (e, playerHp, [])
  else if distR e.mesh playerPos < 25 then
    if (e.attackRange : ℝ) < distR e.mesh playerPos then
      ({ chaseTransition e with
           mesh := e.mesh +
             ((e.speed : ℝ) * dt) • projXZ (normalizeR (playerPos - e.mesh)) },
       playerHp, alertSounds e)
    else
      (chaseTransition e, playerHp - 1 / 10, alertSounds e)
  else (e, playerHp, [])

/-- Game._updateEnemies: the forEach over the enemies array, threading the
player hp through the per enemy drains. -/
noncomputable def updateEnemies (playerPos : Vec3R) (dt : ℝ) :
    List EnemyR → ℚ → List EnemyR × ℚ × List String
  | [], hp => ([], hp, [])
  | e :: es, hp =>
      let r1 := updateEnemy playerPos dt e hp
      let r2 := updateEnemies playerPos dt es r1.2.1
      (r1.1 :: r2.1, r2.2.1, r1.2.2 ++ r2.2.2)

@[simp]
theorem Vec3.add_x {α : Type} [Add α] (a b : Vec3 α) : (a + b).x = a.x + b.x := rfl

@[simp]
theorem Vec3.add_y {α : Type} [Add α] (a b : Vec3 α) : (a + b).y = a.y + b.y := rfl

@[simp]
theorem Vec3.add_z {α : Type} [Add α] (a b : Vec3 α) : (a + b).z = a.z + b.z := rfl

@[simp]
theorem Vec3.sub_x {α : Type} [Sub α] (a b : Vec3 α) : (a - b).x = a.x - b.x := rfl

@[simp]
theorem Vec3.sub_y {α : Type} [Sub α] (a b : Vec3 α) : (a - b).y = a.y - b.y := rfl

@[simp]
theorem Vec3.sub_z {α : Type} [Sub α] (a b : Vec3 α) : (a - b).z = a.z - b.z := rfl

@[simp]
theorem Vec3.smul_x {α : Type} [Mul α] (c : α) (v : Vec3 α) : (c • v).x = c * v.x := rfl

@[simp]
theorem Vec3.smul_y {α : Type} [Mul α] (c : α) (v : Vec3 α) : (c • v).y = c * v.y := rfl

@[simp]
theorem Vec3.smul_z {α : Type} [Mul α] (c : α) (v : Vec3 α) : (c • v).z = c * v.z := rfl

/-- C1: for every weapon slot and fire request, a request inside the cool
down window (now - lastFireTime at most the weapon delay) has no effect at
all: no enemy damage, no sound, no projectile, no ray cast, lastFireTime
unchanged. A request past the window sets lastFireTime to now, requests the
weapon specific cue first, and resolves exactly once, as a hitscan ray for a
HITSCAN weapon and as exactly one new projectile otherwise. -/
theorem c1_fire_gate (now : ℤ) (hits : List Hit) (camPos camDir : Vec3Q)
    (p : Player) (es : List EnemyQ) (ps : List ProjectileQ) :
    (now - p.lastFireTime ≤ (WEAPONS p.currentWeaponIdx).delay →
      handleShooting true now hits camPos camDir p es ps =
        { player := p, enemies := es, projectiles := ps, sounds := [], rayCasts := 0 }) ∧
    ((WEAPONS p.currentWeaponIdx).delay < now - p.lastFireTime →
      (handleShooting true now hits camPos camDir p es ps).player.lastFireTime = now ∧
      (handleShooting true now hits camPos camDir p es ps).sounds.head? =
        some (sfxMap p.currentWeaponIdx) ∧
      ((WEAPONS p.currentWeaponIdx).type = WType.HITSCAN →
        (handleShooting true now hits camPos camDir p es ps).rayCasts = 1 ∧
        (handleShooting true now hits camPos camDir p es ps).projectiles = ps) ∧
      ((WEAPONS p.currentWeaponIdx).type ≠ WType.HITSCAN →
        (handleShooting true now hits camPos camDir p es ps).rayCasts = 0 ∧
        (handleShooting true now hits camPos camDir p es ps).projectiles =
          ps ++ [fireProjectile (WEAPONS p.currentWeaponIdx) camPos camDir]) ∧
      (handleShooting true now hits camPos camDir p es ps).rayCasts +
        ((handleShooting true now hits camPos camDir p es ps).projectiles.length
          - ps.length) = 1) := by
  constructor
  · intro h
    simp only [handleShooting, if_neg (not_lt.mpr h), ite_self]
  · intro h
    by_cases ht : (WEAPONS p.currentWeaponIdx).type = WType.HITSCAN
    · simp only [handleShooting, if_pos rfl, if_pos h, if_pos ht]
      refine ⟨rfl, rfl, fun _ => ⟨rfl, rfl⟩, fun hc => absurd ht hc, ?_⟩
      simp
    · simp only [handleShooting, if_pos rfl, if_pos h, if_neg ht]
      refine ⟨rfl, rfl, fun hc => absurd hc ht, fun _ => ⟨rfl, rfl⟩, ?_⟩
      simp

/-- C1 witness: with the initial player (Knuckles, delay 500, lastFireTime 0)
a fire request at time 100 is inside the window and leaves everything alone. -/
theorem c1_fire_gate_witness :
    (100 : ℤ) - initialPlayer.lastFireTime ≤ (WEAPONS initialPlayer.currentWeaponIdx).delay ∧
    handleShooting true 100 [] ⟨0, 0, 0⟩ ⟨0, 0, 0⟩ initialPlayer [] [] =
      { player := initialPlayer, enemies := [], projectiles := [], sounds := [], rayCasts := 0 } :=
  ⟨by decide,
   (c1_fire_gate 100 [] ⟨0, 0, 0⟩ ⟨0, 0, 0⟩ initialPlayer [] []).1 (by decide)⟩

/-- C10: no part of the shooting path touches the ammo record: a single
frame of Game._handleShooting preserves it, any session of shooting frames
preserves it, the constructor sets it to current 20, max 50, and the HUD
ammo line of Game._updateHUD renders 20 whenever current is 20. -/
theorem c10_ammo_constant :
    (∀ (mouseLeft : Bool) (now : ℤ) (hits : List Hit) (camPos camDir : Vec3Q)
        (p : Player) (es : List EnemyQ) (ps : List ProjectileQ),
      (handleShooting mouseLeft now hits camPos camDir p es ps).player.ammo = p.ammo) ∧
    (∀ (evs : List FireEvent) (s : SimState),
      (fireSession evs s).player.ammo = s.player.ammo) ∧
    initialPlayer.ammo = { current := 20, max := 50 } ∧
    (∀ p : Player, p.ammo.current = 20 →
      hudAmmoText p = "20 | " ++ (WEAPONS p.currentWeaponIdx).name) := by
  have hstep : ∀ (mouseLeft : Bool) (now : ℤ) (hits : List Hit)
      (camPos camDir : Vec3Q) (p : Player) (es : List EnemyQ)
      (ps : List ProjectileQ),
      (handleShooting mouseLeft now hits camPos camDir p es ps).player.ammo = p.ammo := by
    intro mouseLeft now hits camPos camDir p es ps
    simp only [handleShooting]
    split
    · split
      · split <;> rfl
      · rfl
    · rfl
  refine ⟨hstep, ?_, rfl, ?_⟩
  · intro evs
    induction evs with
    | nil => intro s; rfl
    | cons ev rest ih =>
        intro s
        calc (fireSession (ev :: rest) s).player.ammo
            = (fireSession rest (shootTick ev s)).player.ammo := rfl
          _ = (shootTick ev s).player.ammo := ih (shootTick ev s)
          _ = s.player.ammo := hstep ev.mouse ev.now ev.hits ev.camPos ev.camDir
              s.player s.enemies s.projectiles
  · intro p h
    unfold hudAmmoText
    rw [h, show toString (20 : ℤ) ++ " | " = "20 | " from by decide]

/-- C10 witness: a session of one honored Shotgun shot and one gated shot
leaves the ammo at its initial value, and the HUD line of the initial player
reads 20 alongside the weapon name. -/
theorem c10_ammo_constant_witness :
    (fireSession [⟨true, 1000, [], ⟨0, 0, 0⟩, ⟨0, 0, 0⟩⟩, ⟨true, 1100, [], ⟨0, 0, 0⟩, ⟨0, 0, 0⟩⟩]
        ⟨initialPlayer, [], []⟩).player.ammo = { current := 20, max := 50 } ∧
    initialPlayer.ammo.current = 20 ∧
    hudAmmoText initialPlayer = "20 | " ++ (WEAPONS initialPlayer.currentWeaponIdx).name :=
  ⟨(c10_ammo_constant.2.1 _ _).trans c10_ammo_constant.2.2.1, rfl,
   c10_ammo_constant.2.2.2 initialPlayer rfl⟩

/-- C2: under the engine contract that the raycaster returns its hits in
nondecreasing distance order, the head of the list is the nearest enemy
intersection; Game._fireHitscan damages that enemy by exactly the weapon
damage if and only if its distance is at most the weapon range, and a miss
(no intersection, or nearest beyond range) leaves the enemies untouched. -/
theorem c2_hitscan_range (w : Weapon) (hits : List Hit) (es : List EnemyQ)
    (hsorted : hits.Pairwise (fun a b => a.dist ≤ b.dist)) :
    (hits = [] → fireHitscan w hits es = (es, [])) ∧
    (∀ h0, hits.head? = some h0 →
      (∀ h ∈ hits, h0.dist ≤ h.dist) ∧
      (w.range < h0.dist → fireHitscan w hits es = (es, [])) ∧
      (h0.dist ≤ w.range →
        fireHitscan w hits es = damageEnemyAt es h0.idx w.damage) ∧
      (h0.dist ≤ w.range → ∀ e, es[h0.idx]? = some e →
        (0 < e.hp - w.damage →
          (fireHitscan w hits es).1 = es.set h0.idx { e with hp := e.hp - w.damage }) ∧
        (e.hp - w.damage ≤ 0 →
          (fireHitscan w hits es).1 = es.eraseIdx h0.idx))) := by
  constructor
  · intro h
    subst h
    rfl
  · intro h0 hhead
    match hits, hhead with
    | h0 :: rest, rfl =>
      refine ⟨?_, ?_, ?_, ?_⟩
      · intro h hmem
        rcases List.mem_cons.mp hmem with hh | hh
        · exact le_of_eq (congrArg Hit.dist hh.symm)
        · exact (List.pairwise_cons.mp hsorted).1 h hh
      · intro hfar
        simp only [fireHitscan, if_neg (not_le.mpr hfar)]
      · intro hnear
        simp only [fireHitscan, if_pos hnear]
      · intro hnear e he
        simp only [fireHitscan, if_pos hnear, damageEnemyAt, he]
        constructor
        · intro hlive
          rw [if_neg (by simpa [damageEnemy] using not_le.mpr hlive)]
          rfl
        · intro hdead
          rw [if_pos (by simpa [damageEnemy] using hdead)]

/-- C2 witness: a Shotgun ray whose nearest hit is the single enemy at
distance 10, inside range 15, resolves to the damage call on that enemy. -/
theorem c2_hitscan_range_witness :
    ([⟨10, 0⟩] : List Hit).Pairwise (fun a b => a.dist ≤ b.dist) ∧
    ([⟨10, 0⟩] : List Hit).head? = some ⟨10, 0⟩ ∧
    (Hit.dist ⟨10, 0⟩ ≤ (WEAPONS 1).range) ∧
    fireHitscan (WEAPONS 1) [⟨10, 0⟩] [spawnEnemy (⟨0, 0, 0⟩ : Vec3Q)] =
      damageEnemyAt [spawnEnemy (⟨0, 0, 0⟩ : Vec3Q)] (Hit.idx ⟨10, 0⟩) (WEAPONS 1).damage :=
  ⟨List.pairwise_singleton _ _, rfl, by decide,
   ((c2_hitscan_range (WEAPONS 1) [⟨10, 0⟩] [spawnEnemy (⟨0, 0, 0⟩ : Vec3Q)]
      (List.pairwise_singleton _ _)).2 ⟨10, 0⟩ rfl).2.2.1 (by decide)⟩

/-- C4: enemy hp is mutated only by the damage path and never increases for
a nonnegative damage amount; the array level damage operation keeps the
active set free of enemies at hp at most 0 (a killed enemy is spliced out in
the same operation); the per tick enemy pass returns a dead enemy entirely
unchanged and never touches the hp of a live one; and every catalog damage
value is nonnegative. -/
theorem c4_hp_invariant :
    (∀ {V : Type} (e : Enemy V) (d : ℚ), 0 ≤ d → (damageEnemy e d).hp ≤ e.hp) ∧
    (∀ {V : Type} (es : List (Enemy V)) (i : ℕ) (d : ℚ),
      (∀ e ∈ es, 0 < e.hp) → ∀ e' ∈ (damageEnemyAt es i d).1, 0 < e'.hp) ∧
    (∀ (playerPos : Vec3R) (dt : ℝ) (e : EnemyR) (hp : ℚ), e.hp ≤ 0 →
      updateEnemy playerPos dt e hp = (e, hp, [])) ∧
    (∀ (playerPos : Vec3R) (dt : ℝ) (e : EnemyR) (hp : ℚ),
      ((updateEnemy playerPos dt e hp).1).hp = e.hp) ∧
    (∀ i : Fin 4, 0 ≤ (WEAPONS i).damage) := by
  refine ⟨?_, ?_, ?_, ?_, ?_⟩
  · intro V e d hd
    simp only [damageEnemy]
    linarith
  · intro V es i d hall e' hmem
    rcases hes : es[i]? with _ | e
    · simp only [damageEnemyAt, hes] at hmem
      exact hall e' hmem
    · simp only [damageEnemyAt, hes] at hmem
      by_cases hdead : (damageEnemy e d).hp ≤ 0
      · rw [if_pos hdead] at hmem
        exact hall e' (List.eraseIdx_subset es i hmem)
      · rw [if_neg hdead] at hmem
        rcases List.mem_or_eq_of_mem_set hmem with hin | heq
        · exact hall e' hin
        · rw [heq]
          exact lt_of_not_le hdead
  · intro playerPos dt e hp hdead
    simp only [updateEnemy, if_pos hdead]
  · intro playerPos dt e hp
    simp only [updateEnemy]
    split
    · rfl
    · split
      · split
        · simp [chaseTransition]
          split <;> rfl
        · simp [chaseTransition]
          split <;> rfl
      · rfl
  · intro i
    fin_cases i <;> decide

/-- C4 witness: the clauses evaluated on a concrete enemy with mesh identity
0, on a singleton array where 80 damage kills the hp 50 enemy, and on a dead
enemy record for the per tick skip. -/
theorem c4_hp_invariant_witness :
    (damageEnemy (spawnEnemy (0 : ℕ)) 10).hp ≤ (spawnEnemy (0 : ℕ)).hp ∧
    (∀ e' ∈ (damageEnemyAt [spawnEnemy (0 : ℕ)] 0 80).1, 0 < e'.hp) ∧
    updateEnemy ⟨0, 0, 0⟩ 1 { spawnEnemy (⟨0, 0, 0⟩ : Vec3R) with hp := 0 } 100 =
      ({ spawnEnemy (⟨0, 0, 0⟩ : Vec3R) with hp := 0 }, 100, []) ∧
    ((updateEnemy ⟨0, 0, 0⟩ 1 (spawnEnemy (⟨0, 0, 0⟩ : Vec3R)) 100).1).hp =
      (spawnEnemy (⟨0, 0, 0⟩ : Vec3R)).hp ∧
    0 ≤ (WEAPONS 3).damage :=
  ⟨c4_hp_invariant.1 _ _ (by norm_num),
   c4_hp_invariant.2.1 _ _ _ (by decide),
   c4_hp_invariant.2.2.1 _ _ _ _ (le_refl 0),
   c4_hp_invariant.2.2.2.1 _ _ _ _,
   c4_hp_invariant.2.2.2.2 3⟩

theorem firstHitIdx_some_spec (pos : Vec3Q) (es : List EnemyQ) :
    ∀ i, firstHitIdx pos es = some i →
      ∃ e, es[i]? = some e ∧ distSq pos e.mesh < 4 ∧
        ∀ j, j < i → ∀ e', es[j]? = some e' → ¬ distSq pos e'.mesh < 4 := by
  induction es with
  | nil =>
      intro i h
      simp [firstHitIdx] at h
  | cons e es ih =>
      intro i h
      by_cases hd : distSq pos e.mesh < 4
      · simp only [firstHitIdx, if_pos hd] at h
        cases h
        exact ⟨e, by simp, hd, fun j hj => absurd hj (Nat.not_lt_zero j)⟩
      · simp only [firstHitIdx, if_neg hd] at h
        rcases Option.map_eq_some'.mp h with ⟨i0, h0, rfl⟩
        obtain ⟨e0, he0, hdist, hmin⟩ := ih i0 h0
        refine ⟨e0, by simpa using he0, hdist, ?_⟩
        intro j hj e' he'
        cases j with
        | zero =>
            simp only [List.getElem?_cons_zero, Option.some.injEq] at he'
            rw [← he']
            exact hd
        | succ j0 =>
            exact hmin j0 (Nat.lt_of_succ_lt_succ hj) e' (by simpa using he')

theorem firstHitIdx_none_spec (pos : Vec3Q) (es : List EnemyQ)
    (h : firstHitIdx pos es = none) : ∀ e ∈ es, ¬ distSq pos e.mesh < 4 := by
  induction es with
  | nil => intro e he; cases he
  | cons e0 es ih =>
      intro e he
      by_cases hd : distSq pos e0.mesh < 4
      · simp only [firstHitIdx, if_pos hd] at h
        simp at h
      · simp only [firstHitIdx, if_neg hd] at h
        rcases List.mem_cons.mp he with rfl | hmem
        · exact hd
        · exact ih (Option.map_eq_none'.mp h) e hmem

/-- C3: one tick of one projectile first advances it by velocity * dt; if
some enemy of the array is within 2.0 units of the new position, the first
such enemy in array order (not necessarily the closest) takes the full
projectile damage through the single damage call and the projectile is
dropped that same tick; with no enemy within 2.0 units and the lifetime
counted down to at most 0 the projectile is dropped having dealt no damage,
and otherwise it survives unchanged except for position and lifetime. -/
theorem c3_projectile_resolution (dt : ℚ) (p : ProjectileQ) (es : List EnemyQ) :
    (∀ i, firstHitIdx (p.mesh + dt • p.velocity) es = some i →
      stepProjectile dt p es = (none, damageEnemyAt es i p.damage) ∧
      ∃ e, es[i]? = some e ∧ distSq (p.mesh + dt • p.velocity) e.mesh < 4 ∧
        ∀ j, j < i → ∀ e', es[j]? = some e' →
          ¬ distSq (p.mesh + dt • p.velocity) e'.mesh < 4) ∧
    (firstHitIdx (p.mesh + dt • p.velocity) es = none →
      (∀ e ∈ es, ¬ distSq (p.mesh + dt • p.velocity) e.mesh < 4) ∧
      (p.lifetime - dt ≤ 0 → stepProjectile dt p es = (none, es, [])) ∧
      (0 < p.lifetime - dt → stepProjectile dt p es =
        (some { p with mesh := p.mesh + dt • p.velocity,
                       lifetime := p.lifetime - dt }, es, []))) := by
  constructor
  · intro i h
    refine ⟨?_, firstHitIdx_some_spec (p.mesh + dt • p.velocity) es i h⟩
    simp only [stepProjectile, h]
  · intro h
    refine ⟨firstHitIdx_none_spec (p.mesh + dt • p.velocity) es h, ?_, ?_⟩
    · intro hlife
      simp only [stepProjectile, h, if_pos hlife]
    · intro hlife
      simp only [stepProjectile, h, if_neg (not_le.mpr hlife)]

/-- C3 witness: a projectile ending its move at the origin next to a single
enemy one unit away resolves as a hit on that enemy and is dropped. -/
theorem c3_projectile_resolution_witness :
    firstHitIdx ((⟨0, 0, 0⟩ : Vec3Q) + (1 : ℚ) • (⟨0, 0, 0⟩ : Vec3Q))
      [spawnEnemy (⟨0, 0, 1⟩ : Vec3Q)] = some 0 ∧
    stepProjectile 1 ⟨⟨0, 0, 0⟩, ⟨0, 0, 0⟩, WType.PROJECTILE, 15, 2⟩
        [spawnEnemy (⟨0, 0, 1⟩ : Vec3Q)] =
      (none, damageEnemyAt [spawnEnemy (⟨0, 0, 1⟩ : Vec3Q)] 0
        (ProjectileQ.damage ⟨⟨0, 0, 0⟩, ⟨0, 0, 0⟩, WType.PROJECTILE, 15, 2⟩)) :=
  ⟨by norm_num [firstHitIdx, distSq, spawnEnemy],
   ((c3_projectile_resolution 1 ⟨⟨0, 0, 0⟩, ⟨0, 0, 0⟩, WType.PROJECTILE, 15, 2⟩
      [spawnEnemy (⟨0, 0, 1⟩ : Vec3Q)]).1 0
      (by norm_num [firstHitIdx, distSq, spawnEnemy])).1⟩

theorem envTick_cases (locked : Bool) (hits : List EnvHit) (y : ℚ) :
    envTick locked hits y = y ∨ (-5 < y ∧ envTick locked hits y = y - 1 / 10) := by
  cases locked with
  | false => left; simp [envTick]
  | true =>
      cases hits with
      | nil => left; simp [envTick, handleEnvironment]
      | cons h0 rest =>
          simp only [envTick, if_true, handleEnvironment]
          by_cases hd : h0.dist < 4
          · rw [if_pos hd]
            by_cases hs : h0.isSecret = true
            · rw [if_pos hs]
              by_cases hy : y > -5
              · right; exact ⟨hy, if_pos hy⟩
              · left; exact if_neg hy
            · left; exact if_neg hs
          · left; exact if_neg hd

theorem envReachable_height (y : ℚ) (h : envReachable y) :
    ∃ k : ℕ, k ≤ 100 ∧ y = 5 - (k : ℚ) / 10 := by
  induction h with
  | refl => exact ⟨0, by norm_num, by norm_num⟩
  | tail hsteps hstep ih =>
      obtain ⟨k, hk, hy⟩ := ih
      obtain ⟨locked, hits, hc⟩ := hstep
      rcases envTick_cases locked hits _ with hsame | ⟨hgt, hdec⟩
      · exact ⟨k, hk, by rw [hc, hsame, hy]⟩
      · refine ⟨k + 1, ?_, ?_⟩
        · have hklt : (k : ℚ) < 100 := by
            rw [hy] at hgt
            linarith
          have hk100 : k < 100 := by exact_mod_cast hklt
          omega
        · rw [hc, hdec, hy]
          push_cast
          ring

/-- C5: the secret wall moves down, by exactly 0.1 and independently of dt,
precisely when the controls are locked, the nearest level geometry hit of the
view ray is the secret flagged wall at distance below 4.0, and the wall is
still above -5; in every other case the frame leaves it unchanged; and every
height reachable from the build height 5 stays at least -5. -/
theorem c5_secret_wall :
    (∀ (locked : Bool) (hits : List EnvHit) (y : ℚ) (h0 : EnvHit),
      hits.head? = some h0 → locked = true → h0.isSecret = true →
      h0.dist < 4 → -5 < y → envTick locked hits y = y - 1 / 10) ∧
    (∀ (locked : Bool) (hits : List EnvHit) (y : ℚ),
      ¬(locked = true ∧ ∃ h0, hits.head? = some h0 ∧ h0.isSecret = true ∧
          h0.dist < 4 ∧ -5 < y) →
      envTick locked hits y = y) ∧
    (∀ y : ℚ, envReachable y → -5 ≤ y) := by
  refine ⟨?_, ?_, ?_⟩
  · intro locked hits y h0 hhead hlock hsec hdist hy
    subst hlock
    match hits, hhead with
    | h0 :: rest, rfl =>
      simp only [envTick, if_true, handleEnvironment]
      rw [if_pos hdist, if_pos hsec, if_pos hy]
  · intro locked hits y hnot
    cases locked with
    | false => simp [envTick]
    | true =>
        cases hits with
        | nil => simp [envTick, handleEnvironment]
        | cons h0 rest =>
            simp only [envTick, if_true, handleEnvironment]
            by_cases hd : h0.dist < 4
            · rw [if_pos hd]
              by_cases hs : h0.isSecret = true
              · rw [if_pos hs]
                by_cases hy : y > -5
                · exact absurd ⟨rfl, h0, rfl, hs, hd, hy⟩ hnot
                · exact if_neg hy
              · exact if_neg hs
            · exact if_neg hd
  · intro y h
    obtain ⟨k, hk, hy⟩ := envReachable_height y h
    have hkq : (k : ℚ) ≤ 100 := by exact_mod_cast hk
    rw [hy]
    linarith

/-- C5 witness: from the build height 5, one locked frame looking at the
secret wall from distance 1 lowers it to 4.9, which is reachable and at
least -5. -/
theorem c5_secret_wall_witness :
    ([⟨1, true⟩] : List EnvHit).head? = some ⟨1, true⟩ ∧
    EnvHit.dist ⟨1, true⟩ < 4 ∧ (-5 : ℚ) < 5 ∧
    envTick true [⟨1, true⟩] 5 = 5 - 1 / 10 ∧
    envReachable (envTick true [⟨1, true⟩] 5) ∧
    -5 ≤ envTick true [⟨1, true⟩] 5 := by
  have hstep : envTick true [⟨1, true⟩] 5 = 5 - 1 / 10 :=
    c5_secret_wall.1 true [⟨1, true⟩] 5 ⟨1, true⟩ rfl rfl rfl (by norm_num) (by norm_num)
  have hreach : envReachable (envTick true [⟨1, true⟩] 5) :=
    Relation.ReflTransGen.single ⟨true, [⟨1, true⟩], rfl⟩
  exact ⟨rfl, by norm_num, by norm_num, hstep, hreach, c5_secret_wall.2.2 _ hreach⟩

/-- C8 counterexample: the claim as stated says the grounded flag resets
whenever the integrated height falls to or below the floor height 2.5, but
Game._handleMovement tests position.y < 2.5 strictly. A falling, airborne
player whose integration lands exactly at height 2.5 keeps canJump = false
and keeps the downward vertical velocity -30, so the claim fails at this
input. -/
theorem c8_movement_counterexample :
    (moveIntegrate ⟨false, false, false, false, false, false⟩ ⟨0, 0, 0⟩ 1
      initialPlayer ⟨0, 65 / 2, 0⟩).2.y = 5 / 2 ∧
    initialPlayer.canJump = false ∧
    (handleMovement ⟨false, false, false, false, false, false⟩ ⟨0, 0, 0⟩ 1
      initialPlayer ⟨0, 65 / 2, 0⟩).1.canJump = false ∧
    (handleMovement ⟨false, false, false, false, false, false⟩ ⟨0, 0, 0⟩ 1
      initialPlayer ⟨0, 65 / 2, 0⟩).1.velocity.y = -30 := by
  refine ⟨?_, rfl, ?_, ?_⟩ <;>
    norm_num [handleMovement, moveIntegrate, floorCollide, initialPlayer,
      PLAYER_SPEED, SPRINT_MULTIPLIER, GRAVITY, JUMP_FORCE]

/-- C8 amended: vertical velocity is set to the jump impulse on a jump
request only while grounded, and the grounded flag clears on that jump; an
airborne player only accumulates gravity; and the grounded flag resets to
true, with vertical velocity zeroed and the height clamped to the eye height
2.5, exactly when the integrated height falls strictly below 2.5. -/
theorem c8_movement_vertical (keys : Keys) (direction : Vec3Q) (dt : ℚ)
    (p : Player) (camPos : Vec3Q) :
    (keys.space = true → p.canJump = true →
      (moveIntegrate keys direction dt p camPos).1.velocity.y = JUMP_FORCE ∧
      (moveIntegrate keys direction dt p camPos).1.canJump = false) ∧
    (p.canJump = false →
      (moveIntegrate keys direction dt p camPos).1.velocity.y =
        p.velocity.y - GRAVITY * dt ∧
      (moveIntegrate keys direction dt p camPos).1.canJump = false) ∧
    ((moveIntegrate keys direction dt p camPos).2.y < 5 / 2 →
      (handleMovement keys direction dt p camPos).1.canJump = true ∧
      (handleMovement keys direction dt p camPos).1.velocity.y = 0 ∧
      (handleMovement keys direction dt p camPos).2.y = 5 / 2) ∧
    (5 / 2 ≤ (moveIntegrate keys direction dt p camPos).2.y →
      handleMovement keys direction dt p camPos =
        moveIntegrate keys direction dt p camPos) := by
  refine ⟨?_, ?_, ?_, ?_⟩
  · intro hs hj
    simp [moveIntegrate, hs, hj]
  · intro hj
    simp [moveIntegrate, hj]
  · intro h
    simp [handleMovement, floorCollide, if_pos h]
  · intro h
    simp only [handleMovement, floorCollide, if_neg (not_lt.mpr h)]

/-- C8 witness: a grounded player pressing jump gets the jump impulse 15 as
vertical velocity and loses the grounded flag. -/
theorem c8_movement_vertical_witness :
    Keys.space ⟨false, false, false, false, false, true⟩ = true ∧
    ({ initialPlayer with canJump := true } : Player).canJump = true ∧
    (moveIntegrate ⟨false, false, false, false, false, true⟩ ⟨0, 0, 0⟩ 1
      { initialPlayer with canJump := true } ⟨0, 5 / 2, 0⟩).1.velocity.y = JUMP_FORCE ∧
    (moveIntegrate ⟨false, false, false, false, false, true⟩ ⟨0, 0, 0⟩ 1
      { initialPlayer with canJump := true } ⟨0, 5 / 2, 0⟩).1.canJump = false :=
  ⟨rfl, rfl,
   ((c8_movement_vertical ⟨false, false, false, false, false, true⟩ ⟨0, 0, 0⟩ 1
      { initialPlayer with canJump := true } ⟨0, 5 / 2, 0⟩).1 rfl rfl).1,
   ((c8_movement_vertical ⟨false, false, false, false, false, true⟩ ⟨0, 0, 0⟩ 1
      { initialPlayer with canJump := true } ⟨0, 5 / 2, 0⟩).1 rfl rfl).2⟩

theorem normR_nonneg (v : Vec3R) : 0 ≤ normR v :=
  Real.sqrt_nonneg _

theorem normR_smul (c : ℝ) (v : Vec3R) : normR (c • v) = |c| * normR v := by
  unfold normR
  simp only [Vec3.smul_x, Vec3.smul_y, Vec3.smul_z]
  rw [show (c * v.x) ^ 2 + (c * v.y) ^ 2 + (c * v.z) ^ 2 =
        c ^ 2 * (v.x ^ 2 + v.y ^ 2 + v.z ^ 2) by ring,
      Real.sqrt_mul (sq_nonneg c), Real.sqrt_sq_eq_abs]

theorem distR_comm (a b : Vec3R) : distR a b = distR b a := by
  unfold distR normR
  simp only [Vec3.sub_x, Vec3.sub_y, Vec3.sub_z]
  congr 1
  ring

theorem chaseTransition_state {V : Type} (e : Enemy V) :
    (chaseTransition e).state = EState.CHASE := by
  by_cases h : e.state = EState.IDLE
  · simp [chaseTransition, h]
  · have hc : e.state = EState.CHASE := by
      cases hst : e.state
      · exact absurd hst h
      · rfl
    simp [chaseTransition, h, hc]

theorem chaseTransition_mesh {V : Type} (e : Enemy V) :
    (chaseTransition e).mesh = e.mesh := by
  unfold chaseTransition
  split <;> rfl

theorem updateEnemy_alive_insight (playerPos : Vec3R) (dt : ℝ) (e : EnemyR)
    (hp : ℚ) (h1 : ¬ e.hp ≤ 0) (h2 : distR e.mesh playerPos < 25) :
    (updateEnemy playerPos dt e hp).1.state = (chaseTransition e).state ∧
    (updateEnemy playerPos dt e hp).1.texture = (chaseTransition e).texture ∧
    (updateEnemy playerPos dt e hp).2.2 = alertSounds e := by
  simp only [updateEnemy, if_neg h1, if_pos h2]
  split <;> exact ⟨rfl, rfl, rfl⟩

theorem distR_spawn20 : distR (⟨0, 5 / 2, -20⟩ : Vec3R) ⟨0, 5 / 2, 0⟩ = 20 := by
  unfold distR normR
  simp only [Vec3.sub_x, Vec3.sub_y, Vec3.sub_z]
  rw [show ((0 : ℝ) - 0) ^ 2 + ((5 / 2 : ℝ) - 5 / 2) ^ 2 + ((-20 : ℝ) - 0) ^ 2 =
        20 ^ 2 by norm_num]
  exact Real.sqrt_sq (by norm_num)

theorem distR_unit1 : distR (⟨0, 5 / 2, 1⟩ : Vec3R) ⟨0, 5 / 2, 0⟩ = 1 := by
  unfold distR normR
  simp only [Vec3.sub_x, Vec3.sub_y, Vec3.sub_z]
  rw [show ((0 : ℝ) - 0) ^ 2 + ((5 / 2 : ℝ) - 5 / 2) ^ 2 + ((1 : ℝ) - 0) ^ 2 =
        1 ^ 2 by norm_num]
  exact Real.sqrt_sq (by norm_num)

/-- C6: the IDLE to CHASE transition of a live enemy happens exactly when its
distance to the player is below the sight range 25 while it is still IDLE;
the transition is one way (a CHASE enemy stays CHASE, keeps its texture and
requests no alert); the alert cue is requested exactly on the transition tick
and the texture swaps to the chase variant there; and the damage path never
touches the state either. -/
theorem c6_one_way_transition (playerPos : Vec3R) (dt : ℝ) (e : EnemyR) (hp : ℚ) :
    (e.state = EState.CHASE →
      (updateEnemy playerPos dt e hp).1.state = EState.CHASE ∧
      (updateEnemy playerPos dt e hp).1.texture = e.texture ∧
      (updateEnemy playerPos dt e hp).2.2 = []) ∧
    (((updateEnemy playerPos dt e hp).1.state = EState.CHASE ∧ e.state = EState.IDLE) ↔
      (0 < e.hp ∧ e.state = EState.IDLE ∧ distR e.mesh playerPos < 25)) ∧
    ((updateEnemy playerPos dt e hp).2.2 = ["alert"] ↔
      (0 < e.hp ∧ e.state = EState.IDLE ∧ distR e.mesh playerPos < 25)) ∧
    ((0 < e.hp ∧ e.state = EState.IDLE ∧ distR e.mesh playerPos < 25) →
      (updateEnemy playerPos dt e hp).1.texture = "enemy_chase") ∧
    (∀ {V : Type} (e' : Enemy V) (d : ℚ), (damageEnemy e' d).state = e'.state) := by
  by_cases h1 : e.hp ≤ 0
  · have hr : updateEnemy playerPos dt e hp = (e, hp, []) := by
      simp only [updateEnemy, if_pos h1]
    rw [hr]
    refine ⟨fun hs => ⟨hs, rfl, rfl⟩, ?_, ?_, ?_, fun e' d => rfl⟩
    · constructor
      · rintro ⟨hc, hi⟩
        rw [hi] at hc
        exact EState.noConfusion hc
      · rintro ⟨hhp, -, -⟩
        exact absurd h1 (not_le.mpr hhp)
    · constructor
      · intro habs
        exact List.noConfusion habs
      · rintro ⟨hhp, -, -⟩
        exact absurd h1 (not_le.mpr hhp)
    · rintro ⟨hhp, -, -⟩
      exact absurd h1 (not_le.mpr hhp)
  · by_cases h2 : distR e.mesh playerPos < 25
    · obtain ⟨hs1, hs2, hs3⟩ := updateEnemy_alive_insight playerPos dt e hp h1 h2
      rw [hs1, hs2, hs3]
      by_cases hst : e.state = EState.IDLE
      · have hc : chaseTransition e =
            { e with state := EState.CHASE, texture := "enemy_chase" } := by
          simp [chaseTransition, hst]
        have ha : alertSounds e = ["alert"] := by
          simp [alertSounds, hst]
        rw [hc, ha]
        refine ⟨?_, ?_, ?_, fun _ => rfl, fun e' d => rfl⟩
        · intro hs
          rw [hst] at hs
          exact EState.noConfusion hs
        · exact ⟨fun _ => ⟨lt_of_not_le h1, hst, h2⟩, fun _ => ⟨rfl, hst⟩⟩
        · exact ⟨fun _ => ⟨lt_of_not_le h1, hst, h2⟩, fun _ => rfl⟩
      · have hchase : e.state = EState.CHASE := by
          cases hst' : e.state
          · exact absurd hst' hst
          · rfl
        have hc : chaseTransition e = e := by
          simp [chaseTransition, hst]
        have ha : alertSounds e = [] := by
          simp [alertSounds, hst]
        rw [hc, ha]
        refine ⟨fun hs => ⟨hs, rfl, rfl⟩, ?_, ?_, ?_, fun e' d => rfl⟩
        · constructor
          · rintro ⟨-, hi⟩
            exact absurd hi hst
          · rintro ⟨-, hi, -⟩
            exact absurd hi hst
        · constructor
          · intro habs
            exact List.noConfusion habs
          · rintro ⟨-, hi, -⟩
            exact absurd hi hst
        · rintro ⟨-, hi, -⟩
          exact absurd hi hst
    · have hr : updateEnemy playerPos dt e hp = (e, hp, []) := by
        simp only [updateEnemy, if_neg h1, if_neg h2]
      rw [hr]
      refine ⟨fun hs => ⟨hs, rfl, rfl⟩, ?_, ?_, ?_, fun e' d => rfl⟩
      · constructor
        · rintro ⟨hc, hi⟩
          rw [hi] at hc
          exact EState.noConfusion hc
        · rintro ⟨-, -, hdist⟩
          exact absurd hdist h2
      · constructor
        · intro habs
          exact List.noConfusion habs
        · rintro ⟨-, -, hdist⟩
          exact absurd hdist h2
      · rintro ⟨-, -, hdist⟩
        exact absurd hdist h2

/-- C6 witness: a fresh IDLE enemy 20 units from the player (same height)
transitions to CHASE and requests the alert cue on that tick. -/
theorem c6_one_way_transition_witness :
    0 < (spawnEnemy (⟨0, 5 / 2, -20⟩ : Vec3R)).hp ∧
    (spawnEnemy (⟨0, 5 / 2, -20⟩ : Vec3R)).state = EState.IDLE ∧
    distR (spawnEnemy (⟨0, 5 / 2, -20⟩ : Vec3R)).mesh ⟨0, 5 / 2, 0⟩ < 25 ∧
    (updateEnemy ⟨0, 5 / 2, 0⟩ 1 (spawnEnemy (⟨0, 5 / 2, -20⟩ : Vec3R)) 100).1.state =
      EState.CHASE ∧
    (updateEnemy ⟨0, 5 / 2, 0⟩ 1 (spawnEnemy (⟨0, 5 / 2, -20⟩ : Vec3R)) 100).2.2 =
      ["alert"] := by
  have hd : distR (spawnEnemy (⟨0, 5 / 2, -20⟩ : Vec3R)).mesh ⟨0, 5 / 2, 0⟩ < 25 := by
    rw [show (spawnEnemy (⟨0, 5 / 2, -20⟩ : Vec3R)).mesh = ⟨0, 5 / 2, -20⟩ from rfl,
      distR_spawn20]
    norm_num
  have hhp : 0 < (spawnEnemy (⟨0, 5 / 2, -20⟩ : Vec3R)).hp := by norm_num [spawnEnemy]
  refine ⟨hhp, rfl, hd, ?_, ?_⟩
  · exact (((c6_one_way_transition ⟨0, 5 / 2, 0⟩ 1
      (spawnEnemy (⟨0, 5 / 2, -20⟩ : Vec3R)) 100).2.1).mpr ⟨hhp, rfl, hd⟩).1
  · exact ((c6_one_way_transition ⟨0, 5 / 2, 0⟩ 1
      (spawnEnemy (⟨0, 5 / 2, -20⟩ : Vec3R)) 100).2.2.1).mpr ⟨hhp, rfl, hd⟩

/-- C7: a live enemy in sight (distance below 25) and outside its attack
range moves by the displacement obtained from the speed * dt vector toward
the player projected onto the horizontal plane (the code normalizes the 3D
direction, zeroes its vertical component and scales by speed * dt), so its
height never changes and its state is CHASE afterwards; when enemy and
player are at the same height, the moved distance is exactly speed * dt. -/
theorem c7_chase_move (playerPos : Vec3R) (dt : ℝ) (e : EnemyR) (hp : ℚ)
    (h1 : 0 < e.hp) (h2 : distR e.mesh playerPos < 25)
    (h3 : (e.attackRange : ℝ) < distR e.mesh playerPos)
    (h4 : 0 ≤ (e.attackRange : ℝ)) :
    (updateEnemy playerPos dt e hp).1.mesh =
      e.mesh + ((e.speed : ℝ) * dt) • projXZ (normalizeR (playerPos - e.mesh)) ∧
    (updateEnemy playerPos dt e hp).1.mesh.y = e.mesh.y ∧
    (updateEnemy playerPos dt e hp).1.state = EState.CHASE ∧
    (updateEnemy playerPos dt e hp).2.1 = hp ∧
    (e.mesh.y = playerPos.y → 0 ≤ (e.speed : ℝ) * dt →
      distR (updateEnemy playerPos dt e hp).1.mesh e.mesh = (e.speed : ℝ) * dt) := by
  have h1' : ¬ e.hp ≤ 0 := not_le.mpr h1
  have hred : updateEnemy playerPos dt e hp =
      ({ chaseTransition e with
           mesh := e.mesh +
             ((e.speed : ℝ) * dt) • projXZ (normalizeR (playerPos - e.mesh)) },
       hp, alertSounds e) := by
    simp only [updateEnemy, if_neg h1', if_pos h2, if_pos h3]
  rw [hred]
  refine ⟨rfl, by simp [projXZ], chaseTransition_state e, rfl, ?_⟩
  intro hy hsd
  have hvy : (playerPos - e.mesh).y = 0 := by
    simp [hy]
  have hdist_eq : distR e.mesh playerPos = normR (playerPos - e.mesh) := by
    rw [distR_comm]
    rfl
  have hLpos : 0 < normR (playerPos - e.mesh) := by
    rw [← hdist_eq]
    exact lt_of_le_of_lt h4 h3
  have hnorm : normalizeR (playerPos - e.mesh) =
      (normR (playerPos - e.mesh))⁻¹ • (playerPos - e.mesh) := by
    unfold normalizeR
    rw [if_neg (ne_of_gt hLpos)]
  have hproj : projXZ ((normR (playerPos - e.mesh))⁻¹ • (playerPos - e.mesh)) =
      (normR (playerPos - e.mesh))⁻¹ • (playerPos - e.mesh) := by
    unfold projXZ
    refine Vec3.ext rfl ?_ rfl
    simp [hvy]
  show distR (e.mesh + ((e.speed : ℝ) * dt) • projXZ (normalizeR (playerPos - e.mesh)))
      e.mesh = (e.speed : ℝ) * dt
  rw [hnorm, hproj]
  unfold distR
  have hsub : (e.mesh + ((e.speed : ℝ) * dt) •
        ((normR (playerPos - e.mesh))⁻¹ • (playerPos - e.mesh))) - e.mesh =
      ((e.speed : ℝ) * dt) • ((normR (playerPos - e.mesh))⁻¹ • (playerPos - e.mesh)) := by
    ext <;> simp
  rw [hsub, normR_smul, normR_smul, abs_of_nonneg hsd,
    abs_of_nonneg (inv_nonneg.mpr hLpos.le), inv_mul_cancel₀ (ne_of_gt hLpos), mul_one]

/-- C7 witness: the spawned enemy 20 units from a same height player (sight
range 25, attack range 2) moves by exactly speed * dt in one tick. -/
theorem c7_chase_move_witness :
    0 < (spawnEnemy (⟨0, 5 / 2, -20⟩ : Vec3R)).hp ∧
    distR (spawnEnemy (⟨0, 5 / 2, -20⟩ : Vec3R)).mesh ⟨0, 5 / 2, 0⟩ < 25 ∧
    ((spawnEnemy (⟨0, 5 / 2, -20⟩ : Vec3R)).attackRange : ℝ) <
      distR (spawnEnemy (⟨0, 5 / 2, -20⟩ : Vec3R)).mesh ⟨0, 5 / 2, 0⟩ ∧
    distR (updateEnemy ⟨0, 5 / 2, 0⟩ 1 (spawnEnemy (⟨0, 5 / 2, -20⟩ : Vec3R)) 100).1.mesh
        (spawnEnemy (⟨0, 5 / 2, -20⟩ : Vec3R)).mesh =
      ((spawnEnemy (⟨0, 5 / 2, -20⟩ : Vec3R)).speed : ℝ) * 1 := by
  have hd : distR (spawnEnemy (⟨0, 5 / 2, -20⟩ : Vec3R)).mesh ⟨0, 5 / 2, 0⟩ = 20 :=
    distR_spawn20
  refine ⟨by norm_num [spawnEnemy], by rw [hd]; norm_num, ?_, ?_⟩
  · rw [hd]
    norm_num [spawnEnemy]
  · exact (c7_chase_move ⟨0, 5 / 2, 0⟩ 1 (spawnEnemy (⟨0, 5 / 2, -20⟩ : Vec3R)) 100
      (by norm_num [spawnEnemy]) (by rw [hd]; norm_num)
      (by rw [hd]; norm_num [spawnEnemy]) (by norm_num [spawnEnemy])).2.2.2.2
      rfl (by norm_num [spawnEnemy])

/-- C9: a live enemy in sight whose distance is at most its attack range
drains exactly 0.1 player hp on the tick, independently of dt, without
moving; and the drain has no lower clamp, so a nonpositive player hp goes
strictly negative and stays there. -/
theorem c9_attack_drain (playerPos : Vec3R) (dt : ℝ) (e : EnemyR) (hp : ℚ)
    (h1 : 0 < e.hp) (h2 : distR e.mesh playerPos < 25)
    (h3 : distR e.mesh playerPos ≤ (e.attackRange : ℝ)) :
    (updateEnemy playerPos dt e hp).2.1 = hp - 1 / 10 ∧
    (updateEnemy playerPos dt e hp).1.mesh = e.mesh ∧
    (hp ≤ 0 → (updateEnemy playerPos dt e hp).2.1 < 0) := by
  have h1' : ¬ e.hp ≤ 0 := not_le.mpr h1
  have hred : updateEnemy playerPos dt e hp =
      (chaseTransition e, hp - 1 / 10, alertSounds e) := by
    simp only [updateEnemy, if_neg h1', if_pos h2, if_neg (not_lt.mpr h3)]
  rw [hred]
  refine ⟨rfl, chaseTransition_mesh e, ?_⟩
  intro hneg
  show hp - 1 / 10 < 0
  linarith

/-- C9 witness: an enemy one unit from the player (attack range 2) drains
the player hp from 0 to -0.1, below zero, and this is dt independent. -/
theorem c9_attack_drain_witness :
    0 < (spawnEnemy (⟨0, 5 / 2, 1⟩ : Vec3R)).hp ∧
    distR (spawnEnemy (⟨0, 5 / 2, 1⟩ : Vec3R)).mesh ⟨0, 5 / 2, 0⟩ < 25 ∧
    distR (spawnEnemy (⟨0, 5 / 2, 1⟩ : Vec3R)).mesh ⟨0, 5 / 2, 0⟩ ≤
      ((spawnEnemy (⟨0, 5 / 2, 1⟩ : Vec3R)).attackRange : ℝ) ∧
    (updateEnemy ⟨0, 5 / 2, 0⟩ 1 (spawnEnemy (⟨0, 5 / 2, 1⟩ : Vec3R)) 0).2.1 =
      0 - 1 / 10 ∧
    (updateEnemy ⟨0, 5 / 2, 0⟩ 1 (spawnEnemy (⟨0, 5 / 2, 1⟩ : Vec3R)) 0).2.1 < 0 := by
  have hd : distR (spawnEnemy (⟨0, 5 / 2, 1⟩ : Vec3R)).mesh ⟨0, 5 / 2, 0⟩ = 1 :=
    distR_unit1
  refine ⟨by norm_num [spawnEnemy], by rw [hd]; norm_num, ?_, ?_, ?_⟩
  · rw [hd]
    norm_num [spawnEnemy]
  · exact (c9_attack_drain ⟨0, 5 / 2, 0⟩ 1 (spawnEnemy (⟨0, 5 / 2, 1⟩ : Vec3R)) 0
      (by norm_num [spawnEnemy]) (by rw [hd]; norm_num)
      (by rw [hd]; norm_num [spawnEnemy])).1
  · exact (c9_attack_drain ⟨0, 5 / 2, 0⟩ 1 (spawnEnemy (⟨0, 5 / 2, 1⟩ : Vec3R)) 0
      (by norm_num [spawnEnemy]) (by rw [hd]; norm_num)
      (by rw [hd]; norm_num [spawnEnemy])).2.2 (le_refl 0)

end InfernalDescent
